import Mathlib

/-!
Verification of `src/ozone/find_barriers.py`.

The script is embedded shallowly:
* Python floats become `ℚ` (all claim-relevant arithmetic is exact);
* Python non-negative ints become `ℕ` (every quantity the claims range over
  is non-negative, where `Nat` floor division coincides with Python's
  `int(x / d)` and the `K >= max_K - step_K` comparison coincides with
  truncated `Nat` subtraction, see the notes on each definition);
* the filesystem is abstracted into explicit store functions: an energy-curve
  store `(J, K, sym) ↦ Option (List ℚ)` (`none` = file absent) and a channels
  store `(molecule, J, K, sym) ↦ List (ℕ × ℚ)` (the whitespace-tokenised
  lines of `channels.dat`, keeping token[1] = 1-based channel-group id and
  token[2] = barrier position);
* exceptional outcomes become `Except Err`.
-/

/-- Failure modes of the script: `peaks[0]` on an empty peak array
(IndexError), a window/grid length mismatch rejected by `Polynomial.fit`,
and the two explicit `raise Exception` sites. -/
inductive Err where
  | noPeakFound
  | windowOutOfBounds
  | wrongSymmetryCode
  | unknownPathway
  deriving DecidableEq, Repr

/-- Fueled embedding of the inner plateau scan of scipy's
`_local_maxima_1d` (called by `signal.find_peaks` in `find_barrier`):
starting at `i`, advance while `i < len(x) - 1` and `x[i]` equals the
candidate peak value `v`.  Fuel `≥ x.length` makes it total; the driver
below always passes enough. -/
def plateau_end (x : List ℚ) (v : ℚ) : ℕ → ℕ → ℕ
  | 0, i => i
  | fuel + 1, i =>
    if i < x.length - 1 ∧ x.getD i 0 = v then plateau_end x v fuel (i + 1) else i

/-- Fueled embedding of scipy's `_local_maxima_1d` main loop: a sample (or
plateau) strictly greater than its two differing neighbours is a local
maximum, reported at the plateau midpoint `(left_edge + right_edge) / 2`
(rounded down).  Boundary samples are never maxima. -/
def local_maxima_go (x : List ℚ) : ℕ → ℕ → List ℕ
  | 0, _ => []
  | fuel + 1, i =>
    if i < x.length - 1 then
      if x.getD (i - 1) 0 < x.getD i 0 then
        let i_ahead := plateau_end x (x.getD i 0) x.length (i + 1)
        if x.getD i_ahead 0 < x.getD i 0 then
          (i + (i_ahead - 1)) / 2 :: local_maxima_go x fuel (i_ahead + 1)
        else
          local_maxima_go x fuel (i + 1)
      else
        local_maxima_go x fuel (i + 1)
    else []

/-- `scipy.signal.find_peaks(x, height=(hmin, hmax))[0]`: local maxima whose
height lies in the inclusive band `[hmin, hmax]`. -/
def find_peaks (x : List ℚ) (hmin hmax : ℚ) : List ℕ :=
  (local_maxima_go x x.length 1).filter fun p =>
    decide (hmin ≤ x.getD p 0) && decide (x.getD p 0 ≤ hmax)

/-- Coefficients `(a, b, c)` of the polynomial `a + b·x + c·x²` produced by
`Polynomial.fit(xs, ys, 2).convert().coef` on exactly 3 sample points: least
squares on 3 points with distinct abscissae is the unique interpolating
parabola, computed here by Newton's divided differences (the interpolation
property is proved in `parabola_coefs_interpolates` below).  Any other list
shape is a `Polynomial.fit` error, mapped to `(0, 0, 0)` and guarded against
at the call site in `find_barrier`. -/
def parabola_coefs (xs ys : List ℚ) : ℚ × ℚ × ℚ :=
  match xs, ys with
  | [x0, x1, x2], [y0, y1, y2] =>
    let d1 := (y1 - y0) / (x1 - x0)
    let d2 := (y2 - y1) / (x2 - x1)
    let c := (d2 - d1) / (x2 - x0)
    let b := d1 - c * (x0 + x1)
    let a := y0 - b * x0 - c * x0 ^ 2
    (a, b, c)
  | _, _ => (0, 0, 0)

/-- `interpolate_energies_2d`: fit a parabola to the energies and return its
extremum point `-coef[1] / 2 / coef[2]`. -/
def interpolate_energies_2d (grid energies : List ℚ) : ℚ :=
  match parabola_coefs grid energies with
  | (_, b, c) => -b / 2 / c

/-- `find_barrier(root_path, J, K, sym, grid)`: if the energies file for
`(J, K, sym)` exists, find the peaks of its first column within the height
band `(-5000, 5000)` and fit a parabola to the 3-point window
`[peaks[0]-1 : peaks[0]+2]` of grid and energies; otherwise return 0.
`peaks[0]` on no peaks is an IndexError (`noPeakFound`); a window that does
not consist of 3 aligned points is rejected by `Polynomial.fit`
(`windowOutOfBounds`). -/
def find_barrier (store : ℕ → ℕ → ℕ → Option (List ℚ))
    (J K sym : ℕ) (grid : List ℚ) : Except Err ℚ :=
  match store J K sym with
  | none => .ok 0
  | some energies =>
    match find_peaks energies (-5000) 5000 with
    | [] => .error .noPeakFound
    | p :: _ =>
      let grid_window := (grid.drop (p - 1)).take 3
      let energies_window := (energies.drop (p - 1)).take 3
      if grid_window.length = 3 ∧ energies_window.length = 3 then
        .ok (interpolate_energies_2d grid_window energies_window)
      else .error .windowOutOfBounds

/-- `select_interpolating_Js(J)`: the values of `J_low` and `J_high` used to
interpolate a given `J`.  (`int(J / 4) * 4` = `J / 4 * 4` on `ℕ`.) -/
def select_interpolating_Js (J : ℕ) : List ℕ :=
  if J ≤ 8 then [4, 8]
  else if 52 ≤ J then [52, 56]
  else
    let J_low := J / 4 * 4
    let J_high := J_low + 4
    [J_low, J_high]

/-- `select_interpolating_Ks(J, K)`: the values of `K_low` and `K_high` used
to interpolate a given `K`.  Python's `K >= max_K - step_K` over ints equals
`max_K - step_K ≤ K` over `ℕ` (for `K ≥ 0` both hold exactly when
`max(max_K - step_K, 0) ≤ K`), and `max(max_K - step_K, 0)` is
`max (max_K - step_K) 0` verbatim. -/
def select_interpolating_Ks (J K : ℕ) : List ℕ :=
  let step_K := 2
  let max_K := min (J / step_K) 20
  if max_K - step_K ≤ K then
    [max (max_K - step_K) 0, max_K]
  else
    let K_low := K / step_K * step_K
    let K_high := K_low + step_K
    [K_low, K_high]

/-- `get_symmetry_letter(sym_code)`. -/
def get_symmetry_letter (sym_code : ℕ) : Except Err String :=
  if sym_code = 0 then .ok "S"
  else if sym_code = 1 then .ok "A"
  else .error .wrongSymmetryCode

/-- Loop body of `load_lowest_barrier_info`: scan the tokenised lines;
`group_ind = int(token[1]) - 1`; write `float(token[2])` into slot
`group_ind` when that slot still holds 0; stop early once every slot is
strictly positive. -/
def load_lowest_barrier_info_go : List (ℕ × ℚ) → List ℚ → List ℚ
  | [], barrier_positions => barrier_positions
  | line :: rest, barrier_positions =>
    let group_ind := line.1 - 1
    let barrier_position := line.2
    let updated :=
      if barrier_positions.getD group_ind 0 = 0 then
        barrier_positions.set group_ind barrier_position
      else barrier_positions
    if updated.all (fun position => decide (0 < position)) then updated
    else load_lowest_barrier_info_go rest updated

/-- `load_lowest_barrier_info(channels_file_path)`: positions of lowest
barrier tops in the 3 channels, starting from `[0, 0, 0]`.  The channels
file is abstracted to its list of parsed lines `(group id, position)`. -/
def load_lowest_barrier_info (channel_lines : List (ℕ × ℚ)) : List ℚ :=
  load_lowest_barrier_info_go channel_lines [0, 0, 0]

/-- `linear_interpolation_1d(point1, point2, query_x)`:
`(y2 - y1) / (x2 - x1) * (query_x - x1) + y1`. -/
def linear_interpolation_1d (point1 point2 : List ℚ) (query_x : ℚ) : ℚ :=
  (point2.getD 1 0 - point1.getD 1 0) / (point2.getD 0 0 - point1.getD 0 0)
    * (query_x - point1.getD 0 0) + point1.getD 1 0

/-- `linear_interpolation_2d(point1, point2, point3, query_point)`:
interpolate in each dimension separately and add up the results, removing
the doubly counted base value `point1[2]`.  `[point1[i] for i in [0, 2]]`
is `[point1[0], point1[2]]` and `point1[1:]` is `point1.drop 1`. -/
def linear_interpolation_2d (point1 point2 point3 query_point : List ℚ) : ℚ :=
  let interp1 := linear_interpolation_1d [point1.getD 0 0, point1.getD 2 0]
    [point2.getD 0 0, point2.getD 2 0] (query_point.getD 0 0)
  let interp2 := linear_interpolation_1d (point1.drop 1) (point3.drop 1)
    (query_point.getD 1 0)
  interp1 + interp2 - point1.getD 2 0

/-- `interpolate_barrier_positions_JK(molecule, J, K, symmetry)` against an
abstract channels store (replacing `get_channels_file_path` +
`load_lowest_barrier_info`'s file read).  The first component is the list of
interpolated barrier positions (B, A, S) the Python function returns; the
second records, in loop order, the `(J, K)` keys at which the `i, j` double
loop of lines 115-119 reads a channels file. -/
def interpolate_barrier_positions_JK
    (store : String → ℕ → ℕ → ℕ → List (ℕ × ℚ))
    (molecule : String) (J K symmetry : ℕ) : List ℚ × List (ℕ × ℕ) :=
  let Js_interp := select_interpolating_Js J
  let Ks_interp := select_interpolating_Ks (Js_interp.getD 0 0) K
  let fetched := (Js_interp.map fun Ji => Ks_interp.map fun Kj => (Ji, Kj)).flatten
  let barrier_positions_known := Js_interp.map fun Ji =>
    Ks_interp.map fun Kj =>
      load_lowest_barrier_info (store molecule Ji Kj symmetry)
  let nchannels := ((barrier_positions_known.getD 0 []).getD 0 []).length
  let barrier_positions := (List.range nchannels).map fun i =>
    let point1 := [((Js_interp.getD 0 0 : ℕ) : ℚ), ((Ks_interp.getD 0 0 : ℕ) : ℚ),
      ((barrier_positions_known.getD 0 []).getD 0 []).getD i 0]
    let point2 := [((Js_interp.getD 1 0 : ℕ) : ℚ), ((Ks_interp.getD 0 0 : ℕ) : ℚ),
      ((barrier_positions_known.getD 1 []).getD 0 []).getD i 0]
    let point3 := [((Js_interp.getD 0 0 : ℕ) : ℚ), ((Ks_interp.getD 1 0 : ℕ) : ℚ),
      ((barrier_positions_known.getD 0 []).getD 1 []).getD i 0]
    linear_interpolation_2d point1 point2 point3 [(J : ℚ), (K : ℚ)]
  (barrier_positions, fetched)

/-- `get_pathway_index(pathway_letter)`. -/
def get_pathway_index (pathway_letter : String) : Except Err ℕ :=
  if pathway_letter = "B" then .ok 0
  else if pathway_letter = "A" then .ok 1
  else if pathway_letter = "S" then .ok 2
  else .error .unknownPathway

/-- The per-cell loop of `main`, parametrised by the run configuration that
`main` hardcodes (molecule, symmetry, pathway, the J and K lists) and by the
two stores.  The output matrix is indexed `[K_ind][J_ind]` exactly as
`barriers[K_ind, J_ind]`; `np.zeros` followed by `continue` on `K > J`
leaves sentinel 0 in that cell. -/
def compute_barriers (energy_store : ℕ → ℕ → ℕ → Option (List ℚ))
    (channel_store : String → ℕ → ℕ → ℕ → List (ℕ × ℚ))
    (grid : List ℚ) (molecule : String) (sym : ℕ) (pathway : String)
    (Js Ks : List ℕ) : List (List (Except Err ℚ)) :=
  Ks.map fun K => Js.map fun J =>
    if J < K then .ok 0
    else if molecule = "666" then find_barrier energy_store J K sym grid
    else
      let K_sym := if K % 2 = 0 then sym else 1 - sym
      let barrier_positions :=
        (interpolate_barrier_positions_JK channel_store molecule J K K_sym).1
      (get_pathway_index pathway).map fun idx => barrier_positions.getD idx 0

/-- Reference definition for the claimed reading of the channels-file scan
(the specification's words): the FIRST strictly positive value appearing
for a channel in file order, 0 when no strictly positive value ever
appears.  Channels are 0-based here; a line matches channel `ch` when its
1-based group id is `ch + 1`. -/
def first_positive_value (channel_lines : List (ℕ × ℚ)) (channel : ℕ) : ℚ :=
  match channel_lines.find? (fun line =>
      line.1 == channel + 1 && decide (0 < line.2)) with
  | some line => line.2
  | none => 0

/-- What the scan actually keeps for a channel: the FIRST nonzero value
appearing for it in file order (a value of exactly 0 leaves the slot
unclaimed), 0 when every value for the channel is 0. -/
def first_nonzero_value (channel_lines : List (ℕ × ℚ)) (channel : ℕ) : ℚ :=
  match channel_lines.find? (fun line =>
      line.1 == channel + 1 && !decide (line.2 = 0)) with
  | some line => line.2
  | none => 0

/-! ## Structure of the interpolation brackets -/

/-- `select_interpolating_Js` always returns a two-element list
`[J_low, J_low + 4]` with `J_low ≥ 4`, and for `8 < J < 52` the bracket
encloses `J`. -/
lemma select_interpolating_Js_shape (J : ℕ) :
    ∃ a, select_interpolating_Js J = [a, a + 4] ∧ 4 ≤ a ∧
      (8 < J → J < 52 → a ≤ J ∧ J ≤ a + 4) := by
  unfold select_interpolating_Js
  split
  · exact ⟨4, by norm_num, by omega, by omega⟩
  · split
    · exact ⟨52, by norm_num, by omega, by omega⟩
    · refine ⟨J / 4 * 4, rfl, by omega, fun h1 h2 => ⟨by omega, by omega⟩⟩

/-- For `J ≥ 4` (true of every `J_low` produced by `select_interpolating_Js`),
`select_interpolating_Ks` returns `[K_low, K_low + 2]` with
`K_low + 2 ≤ min (J / 2) 20`. -/
lemma select_interpolating_Ks_shape (J K : ℕ) (hJ : 4 ≤ J) :
    ∃ c, select_interpolating_Ks J K = [c, c + 2] ∧ c + 2 ≤ min (J / 2) 20 := by
  simp only [select_interpolating_Ks]
  split
  · refine ⟨min (J / 2) 20 - 2, ?_, by omega⟩
    simp only [List.cons.injEq, and_true]
    constructor <;> omega
  · exact ⟨K / 2 * 2, rfl, by omega⟩

/-- C4: for every non-negative integer `J`, `select_interpolating_Js J`
returns a pair `(J_low, J_high)` with `J_high - J_low = 4`, and for
`8 < J < 52` additionally `J_low ≤ J ≤ J_high`. -/
theorem select_Js_bracket_width_and_enclosure (J : ℕ) :
    (select_interpolating_Js J).getD 1 0 - (select_interpolating_Js J).getD 0 0 = 4 ∧
    (8 < J → J < 52 →
      (select_interpolating_Js J).getD 0 0 ≤ J ∧ J ≤ (select_interpolating_Js J).getD 1 0) := by
  obtain ⟨a, ha, h4, hb⟩ := select_interpolating_Js_shape J
  rw [ha]
  simp only [List.getD_cons_zero, List.getD_cons_succ]
  exact ⟨by omega, hb⟩

/-- Witness for C4 at `J = 10`: bracket `[8, 12]` has width 4 and encloses 10. -/
theorem select_Js_bracket_width_and_enclosure_witness :
    (select_interpolating_Js 10).getD 1 0 - (select_interpolating_Js 10).getD 0 0 = 4 ∧
    ((select_interpolating_Js 10).getD 0 0 ≤ 10 ∧ 10 ≤ (select_interpolating_Js 10).getD 1 0) :=
  ⟨(select_Js_bracket_width_and_enclosure 10).1,
   (select_Js_bracket_width_and_enclosure 10).2 (by decide) (by decide)⟩

/-- C1 counterexample: at `(J, K) = (0, 0)` (which satisfies `0 ≤ K ≤ J`),
`select_interpolating_Ks` returns `[0, 0]`, a bracket of width 0, not 2. -/
theorem select_Ks_bracket_counterexample :
    (0 : ℕ) ≤ 0 ∧ select_interpolating_Ks 0 0 = [0, 0] ∧
      ¬((select_interpolating_Ks 0 0).getD 1 0
          - (select_interpolating_Ks 0 0).getD 0 0 = 2) :=
  ⟨Nat.le_refl 0, by decide, by decide⟩

/-- C1 (amended): for `0 ≤ K ≤ J`, `select_interpolating_Ks J K` returns a
pair `(K_low, K_high)` with `K_low ≥ 0`, `K_high ≤ min (J / 2) 20`, and
width `K_high - K_low = min 2 (min (J / 2) 20)` — so exactly 2 whenever
`min (J / 2) 20 ≥ 2` (in particular whenever `J ≥ 4`), and degenerate
(width 0 or 1) for `J < 4`. -/
theorem select_Ks_bracket_bounds_and_width (J K : ℕ) (hK : K ≤ J) :
    0 ≤ (select_interpolating_Ks J K).getD 0 0 ∧
    (select_interpolating_Ks J K).getD 1 0 ≤ min (J / 2) 20 ∧
    (select_interpolating_Ks J K).getD 1 0 - (select_interpolating_Ks J K).getD 0 0
      = min 2 (min (J / 2) 20) := by
  simp only [select_interpolating_Ks]
  split <;> simp only [List.getD_cons_zero, List.getD_cons_succ] <;> omega

/-- Witness for C1 (amended) at `(J, K) = (5, 2)`: bracket `[0, 2]`,
bounds `0 ≤ 0`, `2 ≤ min 2 20`, width `2 = min 2 (min 2 20)`. -/
theorem select_Ks_bracket_bounds_and_width_witness :
    0 ≤ (select_interpolating_Ks 5 2).getD 0 0 ∧
    (select_interpolating_Ks 5 2).getD 1 0 ≤ min (5 / 2) 20 ∧
    (select_interpolating_Ks 5 2).getD 1 0 - (select_interpolating_Ks 5 2).getD 0 0
      = min 2 (min (5 / 2) 20) :=
  select_Ks_bracket_bounds_and_width 5 2 (by decide)

/-- C9: for every interpolated-mode query `(J, K)`, the J-bracket has width
4 and the K-bracket computed from `J_low = (select_interpolating_Js J).getD 0 0`
has width exactly 2; consequently both denominators
`x2 - x1` appearing in the two `linear_interpolation_1d` calls performed by
`interpolate_barrier_positions_JK` (namely `↑J_high - ↑J_low` and
`↑K_high - ↑K_low` in `ℚ`) are nonzero, so the degenerate
division-by-zero bracket is unreachable. -/
theorem interpolation_brackets_nondegenerate (J K : ℕ) :
    (select_interpolating_Js J).getD 1 0 - (select_interpolating_Js J).getD 0 0 = 4 ∧
    (select_interpolating_Ks ((select_interpolating_Js J).getD 0 0) K).getD 1 0
      - (select_interpolating_Ks ((select_interpolating_Js J).getD 0 0) K).getD 0 0 = 2 ∧
    (((select_interpolating_Js J).getD 1 0 : ℚ)
      - ((select_interpolating_Js J).getD 0 0 : ℚ) ≠ 0) ∧
    (((select_interpolating_Ks ((select_interpolating_Js J).getD 0 0) K).getD 1 0 : ℚ)
      - ((select_interpolating_Ks ((select_interpolating_Js J).getD 0 0) K).getD 0 0 : ℚ) ≠ 0) := by
  obtain ⟨a, hJ, h4, -⟩ := select_interpolating_Js_shape J
  rw [hJ]
  simp only [List.getD_cons_zero, List.getD_cons_succ]
  obtain ⟨c, hKs, -⟩ := select_interpolating_Ks_shape a K h4
  rw [hKs]
  simp only [List.getD_cons_zero, List.getD_cons_succ]
  refine ⟨by omega, by omega, ?_, ?_⟩ <;>
    · refine sub_ne_zero.mpr ?_
      exact_mod_cast Nat.ne_of_gt (by omega)

/-! ## Planar interpolation and barrier extraction -/

/-- `parabola_coefs` on 3 points with pairwise distinct abscissae yields the
(unique) interpolating parabola: `a + b·xᵢ + c·xᵢ² = yᵢ` for all 3 points,
justifying the divided-difference embedding of `Polynomial.fit(·, ·, 2)`. -/
lemma parabola_coefs_interpolates (x0 x1 x2 y0 y1 y2 a b c : ℚ)
    (h01 : x0 ≠ x1) (h12 : x1 ≠ x2) (h02 : x0 ≠ x2)
    (h : parabola_coefs [x0, x1, x2] [y0, y1, y2] = (a, b, c)) :
    a + b * x0 + c * x0 ^ 2 = y0 ∧ a + b * x1 + c * x1 ^ 2 = y1 ∧
      a + b * x2 + c * x2 ^ 2 = y2 := by
  simp only [parabola_coefs, Prod.mk.injEq] at h
  obtain ⟨ha, hb, hc⟩ := h
  have d01 : x1 - x0 ≠ 0 := sub_ne_zero.mpr (Ne.symm h01)
  have d12 : x2 - x1 ≠ 0 := sub_ne_zero.mpr (Ne.symm h12)
  have d02 : x2 - x0 ≠ 0 := sub_ne_zero.mpr (Ne.symm h02)
  subst ha hb hc
  refine ⟨by ring, ?_, ?_⟩ <;> field_simp <;> ring

/-- C5: planar interpolation is the 1D interpolation along J at fixed
`K_low` plus the 1D interpolation along K at fixed `J_low` minus the base
corner value once; and on corners `(0,0,10)`, `(10,0,30)`, `(0,10,20)` with
query `(5,5)` it returns exactly 25. -/
theorem planar_interpolation_decomposition :
    (∀ J_low K_low v00 J_high vJ K_high vK qJ qK : ℚ,
      linear_interpolation_2d [J_low, K_low, v00] [J_high, K_low, vJ]
          [J_low, K_high, vK] [qJ, qK]
        = linear_interpolation_1d [J_low, v00] [J_high, vJ] qJ
          + linear_interpolation_1d [K_low, v00] [K_high, vK] qK - v00) ∧
    linear_interpolation_2d [0, 0, 10] [10, 0, 30] [0, 10, 20] [5, 5] = 25 := by
  constructor
  · intro J_low K_low v00 J_high vJ K_high vK qJ qK
    rfl
  · norm_num [linear_interpolation_2d, linear_interpolation_1d]

/-- C6: on `grid = [1,2,3,4,5]`, `energies = [0,1,5,1,0]`, the first
in-band local maximum is at index 2; the fitted parabola over the window
`(2,1), (3,5), (4,1)` is `-31 + 24·x - 4·x²`, which passes through all 3
window points; its vertex abscissa `-b/(2c) = 3`; and `find_barrier`
returns exactly 3. -/
theorem barrier_extraction_concrete :
    find_peaks [0, 1, 5, 1, 0] (-5000) 5000 = [2] ∧
    parabola_coefs [2, 3, 4] [1, 5, 1] = (-31, 24, -4) ∧
    ((-31 : ℚ) + 24 * 2 + -4 * 2 ^ 2 = 1 ∧ (-31 : ℚ) + 24 * 3 + -4 * 3 ^ 2 = 5 ∧
      (-31 : ℚ) + 24 * 4 + -4 * 4 ^ 2 = 1) ∧
    -(24 : ℚ) / (2 * -4) = 3 ∧
    find_barrier (fun _ _ _ => some [0, 1, 5, 1, 0]) 0 0 0 [1, 2, 3, 4, 5] = .ok 3 := by
  refine ⟨by decide, by norm_num [parabola_coefs], by norm_num, by norm_num, ?_⟩
  have hp : find_peaks [0, 1, 5, 1, 0] (-5000) 5000 = [2] := by decide
  simp only [find_barrier, hp]
  norm_num [interpolate_energies_2d, parabola_coefs]

/-- C8: in direct mode, when the energy-curve file for the requested state
does not exist, `find_barrier` returns sentinel 0 and raises no error. -/
theorem find_barrier_missing_file_returns_zero
    (store : ℕ → ℕ → ℕ → Option (List ℚ)) (J K sym : ℕ) (grid : List ℚ)
    (h : store J K sym = none) :
    find_barrier store J K sym grid = .ok 0 := by
  simp only [find_barrier, h]

/-- Witness for C8: the everywhere-empty store. -/
theorem find_barrier_missing_file_returns_zero_witness :
    find_barrier (fun _ _ _ => none) 0 0 0 [] = .ok 0 :=
  find_barrier_missing_file_returns_zero (fun _ _ _ => none) 0 0 0 [] rfl

/-! ## The output field -/

/-- C7: every cell of the output matrix whose state has `K > J` holds the
sentinel 0 (as an error-free value), for every molecule, symmetry, pathway
and both stores — the `K > J` guard fires before any barrier computation,
so the cell cannot depend on any loaded data. -/
theorem nonphysical_cells_are_sentinel_zero
    (energy_store : ℕ → ℕ → ℕ → Option (List ℚ))
    (channel_store : String → ℕ → ℕ → ℕ → List (ℕ × ℚ))
    (grid : List ℚ) (molecule : String) (sym : ℕ) (pathway : String)
    (Js Ks : List ℕ) (k j Kv Jv : ℕ)
    (row : List (Except Err ℚ)) (cell : Except Err ℚ)
    (hK : Ks.get? k = some Kv) (hJ : Js.get? j = some Jv)
    (hrow : (compute_barriers energy_store channel_store grid molecule sym
      pathway Js Ks).get? k = some row)
    (hcell : row.get? j = some cell)
    (hKJ : Jv < Kv) :
    cell = .ok 0 := by
  simp only [compute_barriers, List.get?_map, hK, Option.map_some',
    Option.some.injEq] at hrow
  subst hrow
  simp only [List.get?_map, hJ, Option.map_some', Option.some.injEq] at hcell
  subst hcell
  simp only [if_pos hKJ]

/-- Witness for C7: a 1×1 field with `Ks = [5]`, `Js = [0]`. -/
theorem nonphysical_cells_are_sentinel_zero_witness :
    (Except.ok (0 : ℚ) : Except Err ℚ) = .ok 0 :=
  nonphysical_cells_are_sentinel_zero (fun _ _ _ => none) (fun _ _ _ _ => [])
    [] "868" 0 "S" [0] [5] 0 0 5 0 [Except.ok 0] (Except.ok 0)
    rfl rfl rfl rfl (by decide)

/-! ## The fourth corner -/

/-- C3 counterexample: at the query `(J, K, sym) = (10, 0, 0)` the `i, j`
double loop reads the channels files of all four corners: the fetch trace
is `[(8,0), (8,2), (12,0), (12,2)]`, which contains the 4th corner
`(J_high, K_high) = (12, 2)` and has length 4, not 3. -/
theorem fourth_corner_is_fetched :
    (interpolate_barrier_positions_JK (fun _ _ _ _ => []) "868" 10 0 0).2
      = [(8, 0), (8, 2), (12, 0), (12, 2)] ∧
    ((select_interpolating_Js 10).getD 1 0,
      (select_interpolating_Ks ((select_interpolating_Js 10).getD 0 0) 0).getD 1 0)
        ∈ (interpolate_barrier_positions_JK (fun _ _ _ _ => []) "868" 10 0 0).2 ∧
    (interpolate_barrier_positions_JK (fun _ _ _ _ => []) "868" 10 0 0).2.length ≠ 3 := by
  refine ⟨?_, ?_, ?_⟩ <;> decide

/-- C3 (amended): the record stored at the 4th corner `(J_high, K_high)` is
never used — the returned barrier positions are identical for any two
channels stores that agree everywhere except possibly at
`(J_high, K_high)`. -/
theorem interpolation_independent_of_fourth_corner
    (store1 store2 : String → ℕ → ℕ → ℕ → List (ℕ × ℚ))
    (molecule : String) (J K symmetry : ℕ)
    (h : ∀ j k, (j, k) ≠ ((select_interpolating_Js J).getD 1 0,
        (select_interpolating_Ks ((select_interpolating_Js J).getD 0 0) K).getD 1 0) →
      store1 molecule j k symmetry = store2 molecule j k symmetry) :
    (interpolate_barrier_positions_JK store1 molecule J K symmetry).1
      = (interpolate_barrier_positions_JK store2 molecule J K symmetry).1 := by
  obtain ⟨a, hJs, h4, -⟩ := select_interpolating_Js_shape J
  obtain ⟨c, hKs, -⟩ := select_interpolating_Ks_shape a K h4
  simp only [hJs, List.getD_cons_zero, List.getD_cons_succ, hKs] at h
  have h00 : store1 molecule a c symmetry = store2 molecule a c symmetry :=
    h a c (by simp only [ne_eq, Prod.mk.injEq, not_and]; omega)
  have h10 : store1 molecule (a + 4) c symmetry = store2 molecule (a + 4) c symmetry :=
    h (a + 4) c (by simp only [ne_eq, Prod.mk.injEq, not_and]; omega)
  have h01 : store1 molecule a (c + 2) symmetry = store2 molecule a (c + 2) symmetry :=
    h a (c + 2) (by simp only [ne_eq, Prod.mk.injEq, not_and]; omega)
  simp only [interpolate_barrier_positions_JK, hJs, List.getD_cons_zero,
    List.getD_cons_succ, hKs, List.map_cons, List.map_nil, h00, h10, h01]

/-- Witness for C3 (amended): at query `(10, 0, 0)` the empty store and a
store that differs only at the 4th corner `(12, 2)` yield the same barrier
positions. -/
theorem interpolation_independent_of_fourth_corner_witness :
    (interpolate_barrier_positions_JK (fun _ _ _ _ => []) "868" 10 0 0).1
      = (interpolate_barrier_positions_JK
          (fun _ j k _ => if j = 12 ∧ k = 2 then [(1, 7)] else []) "868" 10 0 0).1 := by
  apply interpolation_independent_of_fourth_corner
  intro j k hjk
  have hcorner : ((select_interpolating_Js 10).getD 1 0,
      (select_interpolating_Ks ((select_interpolating_Js 10).getD 0 0) 0).getD 1 0)
        = ((12 : ℕ), (2 : ℕ)) := by decide
  rw [hcorner] at hjk
  split
  · next hc => exact absurd (by rw [hc.1, hc.2]) hjk
  · rfl

/-! ## The channels-file scan -/

/-- A cons line claiming channel `ch` with a nonzero value is what
`first_nonzero_value` returns. -/
lemma first_nonzero_value_cons_match (gid : ℕ) (pos : ℚ) (rest : List (ℕ × ℚ))
    (ch : ℕ) (hg : gid = ch + 1) (hp : pos ≠ 0) :
    first_nonzero_value ((gid, pos) :: rest) ch = pos := by
  simp [first_nonzero_value, List.find?, hg, hp]

/-- A cons line for another channel, or with value 0, is skipped by
`first_nonzero_value`. -/
lemma first_nonzero_value_cons_skip (gid : ℕ) (pos : ℚ) (rest : List (ℕ × ℚ))
    (ch : ℕ) (h : gid ≠ ch + 1 ∨ pos = 0) :
    first_nonzero_value ((gid, pos) :: rest) ch = first_nonzero_value rest ch := by
  rcases h with h | h
  · have hb : (gid == ch + 1) = false := beq_eq_false_iff_ne.mpr h
    simp [first_nonzero_value, List.find?, hb]
  · simp [first_nonzero_value, List.find?, h]

lemma load_lowest_barrier_info_go_spec (channel_lines : List (ℕ × ℚ))
    (hids : ∀ line ∈ channel_lines, line.1 = 1 ∨ line.1 = 2 ∨ line.1 = 3) :
    ∀ a0 a1 a2 : ℚ,
      load_lowest_barrier_info_go channel_lines [a0, a1, a2] =
        [if a0 ≠ 0 then a0 else first_nonzero_value channel_lines 0,
         if a1 ≠ 0 then a1 else first_nonzero_value channel_lines 1,
         if a2 ≠ 0 then a2 else first_nonzero_value channel_lines 2] := by
  induction channel_lines with
  | nil =>
    intro a0 a1 a2
    simp only [load_lowest_barrier_info_go, first_nonzero_value, List.find?_nil,
      List.cons.injEq, and_true]
    refine ⟨?_, ?_, ?_⟩ <;> (split <;> simp_all)
  | cons line rest ih =>
    obtain ⟨gid, pos⟩ := line
    intro a0 a1 a2
    have hgid : gid = 1 ∨ gid = 2 ∨ gid = 3 := hids (gid, pos) (List.mem_cons_self _ _)
    have hrest : ∀ line ∈ rest, line.1 = 1 ∨ line.1 = 2 ∨ line.1 = 3 :=
      fun l hl => hids l (List.mem_cons_of_mem _ hl)
    simp only [load_lowest_barrier_info_go]
    rcases hgid with rfl | rfl | rfl
    · -- gid = 1, slot 0
      have s1 : first_nonzero_value ((1, pos) :: rest) 1 = first_nonzero_value rest 1 :=
        first_nonzero_value_cons_skip _ _ _ _ (Or.inl (by norm_num))
      have s2 : first_nonzero_value ((1, pos) :: rest) 2 = first_nonzero_value rest 2 :=
        first_nonzero_value_cons_skip _ _ _ _ (Or.inl (by norm_num))
      simp only [Nat.sub_self, List.getD_cons_zero, List.set_cons_zero]
      by_cases h0 : a0 = 0
      · subst h0
        simp only [if_pos rfl, if_true]
        by_cases hall : ([pos, a1, a2].all fun position => decide (0 < position)) = true
        · simp only [List.all_cons, List.all_nil, Bool.and_true, Bool.and_eq_true,
            decide_eq_true_eq] at hall
          obtain ⟨hp, h1, h2⟩ := hall
          have s0 : first_nonzero_value ((1, pos) :: rest) 0 = pos :=
            first_nonzero_value_cons_match _ _ _ _ rfl (ne_of_gt hp)
          simp [hp, h1, h2, ne_of_gt hp, ne_of_gt h1, ne_of_gt h2, s0,
            List.all_cons]
        · rw [if_neg hall, ih hrest pos a1 a2]
          simp only [List.cons.injEq, and_true]
          refine ⟨?_, ?_, ?_⟩
          · by_cases hp : pos = 0
            · have s0 : first_nonzero_value ((1, pos) :: rest) 0
                  = first_nonzero_value rest 0 :=
                first_nonzero_value_cons_skip _ _ _ _ (Or.inr hp)
              subst hp
              simp [s0]
            · have s0 : first_nonzero_value ((1, pos) :: rest) 0 = pos :=
                first_nonzero_value_cons_match _ _ _ _ rfl hp
              simp [hp, s0]
          · rw [s1]
          · rw [s2]
      · simp only [if_neg h0]
        by_cases hall : ([a0, a1, a2].all fun position => decide (0 < position)) = true
        · simp only [List.all_cons, List.all_nil, Bool.and_true, Bool.and_eq_true,
            decide_eq_true_eq] at hall
          obtain ⟨hp, h1, h2⟩ := hall
          simp [hp, h1, h2, ne_of_gt hp, ne_of_gt h1, ne_of_gt h2, List.all_cons]
        · rw [if_neg hall, ih hrest a0 a1 a2]
          simp only [List.cons.injEq, and_true]
          refine ⟨by simp [h0], by rw [s1], by rw [s2]⟩
    · -- gid = 2, slot 1
      have s0 : first_nonzero_value ((2, pos) :: rest) 0 = first_nonzero_value rest 0 :=
        first_nonzero_value_cons_skip _ _ _ _ (Or.inl (by norm_num))
      have s2 : first_nonzero_value ((2, pos) :: rest) 2 = first_nonzero_value rest 2 :=
        first_nonzero_value_cons_skip _ _ _ _ (Or.inl (by norm_num))
      have g2 : ∀ x y z : ℚ, [x, y, z].getD (2 - 1) 0 = y := fun _ _ _ => rfl
      have t2 : ∀ x y z w : ℚ, [x, y, z].set (2 - 1) w = [x, w, z] := fun _ _ _ _ => rfl
      simp only [g2, t2]
      by_cases h1 : a1 = 0
      · subst h1
        simp only [if_pos rfl, if_true]
        by_cases hall : ([a0, pos, a2].all fun position => decide (0 < position)) = true
        · simp only [List.all_cons, List.all_nil, Bool.and_true, Bool.and_eq_true,
            decide_eq_true_eq] at hall
          obtain ⟨h0, hp, h2⟩ := hall
          have sm : first_nonzero_value ((2, pos) :: rest) 1 = pos :=
            first_nonzero_value_cons_match _ _ _ _ rfl (ne_of_gt hp)
          simp [h0, hp, h2, ne_of_gt h0, ne_of_gt hp, ne_of_gt h2, sm,
            List.all_cons]
        · rw [if_neg hall, ih hrest a0 pos a2]
          simp only [List.cons.injEq, and_true]
          refine ⟨by rw [s0], ?_, by rw [s2]⟩
          by_cases hp : pos = 0
          · have sm : first_nonzero_value ((2, pos) :: rest) 1
                = first_nonzero_value rest 1 :=
              first_nonzero_value_cons_skip _ _ _ _ (Or.inr hp)
            subst hp
            simp [sm]
          · have sm : first_nonzero_value ((2, pos) :: rest) 1 = pos :=
              first_nonzero_value_cons_match _ _ _ _ rfl hp
            simp [hp, sm]
      · simp only [if_neg h1]
        by_cases hall : ([a0, a1, a2].all fun position => decide (0 < position)) = true
        · simp only [List.all_cons, List.all_nil, Bool.and_true, Bool.and_eq_true,
            decide_eq_true_eq] at hall
          obtain ⟨h0, hp, h2⟩ := hall
          simp [h0, hp, h2, ne_of_gt h0, ne_of_gt hp, ne_of_gt h2, List.all_cons]
        · rw [if_neg hall, ih hrest a0 a1 a2]
          simp only [List.cons.injEq, and_true]
          refine ⟨by rw [s0], by simp [h1], by rw [s2]⟩
    · -- gid = 3, slot 2
      have s0 : first_nonzero_value ((3, pos) :: rest) 0 = first_nonzero_value rest 0 :=
        first_nonzero_value_cons_skip _ _ _ _ (Or.inl (by norm_num))
      have s1 : first_nonzero_value ((3, pos) :: rest) 1 = first_nonzero_value rest 1 :=
        first_nonzero_value_cons_skip _ _ _ _ (Or.inl (by norm_num))
      have g3 : ∀ x y z : ℚ, [x, y, z].getD (3 - 1) 0 = z := fun _ _ _ => rfl
      have t3 : ∀ x y z w : ℚ, [x, y, z].set (3 - 1) w = [x, y, w] := fun _ _ _ _ => rfl
      simp only [g3, t3]
      by_cases h2 : a2 = 0
      · subst h2
        simp only [if_pos rfl, if_true]
        by_cases hall : ([a0, a1, pos].all fun position => decide (0 < position)) = true
        · simp only [List.all_cons, List.all_nil, Bool.and_true, Bool.and_eq_true,
            decide_eq_true_eq] at hall
          obtain ⟨h0, h1, hp⟩ := hall
          have sm : first_nonzero_value ((3, pos) :: rest) 2 = pos :=
            first_nonzero_value_cons_match _ _ _ _ rfl (ne_of_gt hp)
          simp [h0, h1, hp, ne_of_gt h0, ne_of_gt h1, ne_of_gt hp, sm,
            List.all_cons]
        · rw [if_neg hall, ih hrest a0 a1 pos]
          simp only [List.cons.injEq, and_true]
          refine ⟨by rw [s0], by rw [s1], ?_⟩
          by_cases hp : pos = 0
          · have sm : first_nonzero_value ((3, pos) :: rest) 2
                = first_nonzero_value rest 2 :=
              first_nonzero_value_cons_skip _ _ _ _ (Or.inr hp)
            subst hp
            simp [sm]
          · have sm : first_nonzero_value ((3, pos) :: rest) 2 = pos :=
              first_nonzero_value_cons_match _ _ _ _ rfl hp
            simp [hp, sm]
      · simp only [if_neg h2]
        by_cases hall : ([a0, a1, a2].all fun position => decide (0 < position)) = true
        · simp only [List.all_cons, List.all_nil, Bool.and_true, Bool.and_eq_true,
            decide_eq_true_eq] at hall
          obtain ⟨h0, h1, hp⟩ := hall
          simp [h0, h1, hp, ne_of_gt h0, ne_of_gt h1, ne_of_gt hp, List.all_cons]
        · rw [if_neg hall, ih hrest a0 a1 a2]
          simp only [List.cons.injEq, and_true]
          refine ⟨by rw [s0], by rw [s1], by simp [h2]⟩

/-- C2 (amended): for every channels file whose group ids lie in {1,2,3},
`load_lowest_barrier_info` returns, for each of the 3 channels, the FIRST
nonzero value appearing for that channel in file order (zero-valued lines
leave the slot unclaimed; in particular a negative first value is kept),
and 0 for a channel whose values are all zero.  The early `break` cannot
change the result, since nonzero slots are never overwritten. -/
theorem load_lowest_barrier_info_first_nonzero (channel_lines : List (ℕ × ℚ))
    (hids : ∀ line ∈ channel_lines, line.1 = 1 ∨ line.1 = 2 ∨ line.1 = 3) :
    load_lowest_barrier_info channel_lines =
      [first_nonzero_value channel_lines 0, first_nonzero_value channel_lines 1,
       first_nonzero_value channel_lines 2] := by
  have h := load_lowest_barrier_info_go_spec channel_lines hids 0 0 0
  simpa [load_lowest_barrier_info] using h

/-- Witness for C2 (amended) on the file [(1,-1), (2,2), (1,3)]:
channel 0 keeps -1 (its first nonzero value), channel 1 keeps 2,
channel 2 stays 0. -/
theorem load_lowest_barrier_info_first_nonzero_witness :
    load_lowest_barrier_info [(1, -1), (2, 2), (1, 3)] =
      [first_nonzero_value [(1, -1), (2, 2), (1, 3)] 0,
       first_nonzero_value [(1, -1), (2, 2), (1, 3)] 1,
       first_nonzero_value [(1, -1), (2, 2), (1, 3)] 2] :=
  load_lowest_barrier_info_first_nonzero [(1, -1), (2, 2), (1, 3)] (by decide)

/-- C2 counterexample: in the file [(1, -1), (1, 3)] the first strictly
positive value for channel 0 is 3, but the code keeps -1 — the first
nonzero value — so the claimed "first strictly positive value" reading is
false. -/
theorem load_lowest_barrier_info_counterexample :
    load_lowest_barrier_info [(1, -1), (1, 3)] = [-1, 0, 0] ∧
    first_positive_value [(1, -1), (1, 3)] 0 = 3 ∧
    (load_lowest_barrier_info [(1, -1), (1, 3)]).getD 0 0
      ≠ first_positive_value [(1, -1), (1, 3)] 0 := by
  refine ⟨by decide, by decide, by decide⟩

/-! ## Peak indices are interior -/

/-- The plateau scan never moves left. -/
lemma plateau_end_ge (x : List ℚ) (v : ℚ) :
    ∀ fuel i, i ≤ plateau_end x v fuel i := by
  intro fuel
  induction fuel with
  | zero => intro i; simp [plateau_end]
  | succ n ih =>
    intro i
    simp only [plateau_end]
    split
    · exact le_trans (Nat.le_succ i) (ih (i + 1))
    · exact le_refl i

/-- The plateau scan never moves past the last index. -/
lemma plateau_end_le (x : List ℚ) (v : ℚ) :
    ∀ fuel i, i ≤ x.length - 1 → plateau_end x v fuel i ≤ x.length - 1 := by
  intro fuel
  induction fuel with
  | zero => intro i h; simpa [plateau_end] using h
  | succ n ih =>
    intro i h
    simp only [plateau_end]
    split
    · next hc => exact ih (i + 1) (by omega)
    · exact h

/-- Every index reported by the local-maxima scan started at `i ≥ 1` lies in
`[i, x.length - 2]`: local maxima need both neighbours to exist. -/
lemma local_maxima_go_bounds (x : List ℚ) :
    ∀ fuel i p, 1 ≤ i → p ∈ local_maxima_go x fuel i →
      i ≤ p ∧ p + 2 ≤ x.length := by
  intro fuel
  induction fuel with
  | zero => intro i p _ hp; simp [local_maxima_go] at hp
  | succ n ih =>
    intro i p hi hp
    simp only [local_maxima_go] at hp
    by_cases h1 : i < x.length - 1
    · rw [if_pos h1] at hp
      by_cases h2 : x.getD (i - 1) 0 < x.getD i 0
      · rw [if_pos h2] at hp
        have hge : i + 1 ≤ plateau_end x (x.getD i 0) x.length (i + 1) :=
          plateau_end_ge x _ x.length (i + 1)
        have hle : plateau_end x (x.getD i 0) x.length (i + 1) ≤ x.length - 1 :=
          plateau_end_le x _ x.length (i + 1) (by omega)
        by_cases h3 : x.getD (plateau_end x (x.getD i 0) x.length (i + 1)) 0
            < x.getD i 0
        · rw [if_pos h3] at hp
          rcases List.mem_cons.mp hp with rfl | hp'
          · constructor <;> omega
          · have hb := ih (plateau_end x (x.getD i 0) x.length (i + 1) + 1) p
              (by omega) hp'
            omega
        · rw [if_neg h3] at hp
          have hb := ih (i + 1) p (by omega) hp
          omega
      · rw [if_neg h2] at hp
        have hb := ih (i + 1) p (by omega) hp
        omega
    · rw [if_neg h1] at hp
      simp at hp

/-- C10: whenever peak detection finds at least one in-band local maximum,
the first peak index `p` satisfies `1 ≤ p ≤ length - 2`, so (for a grid
aligned with the energies) both 3-point windows `[p-1 : p+2]` have exactly
3 elements and `find_barrier` cannot fail with `windowOutOfBounds`. -/
theorem first_peak_window_in_bounds
    (grid energies : List ℚ) (p : ℕ) (ps : List ℕ)
    (store : ℕ → ℕ → ℕ → Option (List ℚ)) (J K sym : ℕ)
    (hlen : grid.length = energies.length)
    (hpeaks : find_peaks energies (-5000) 5000 = p :: ps)
    (hst : store J K sym = some energies) :
    1 ≤ p ∧ p + 2 ≤ energies.length ∧
    ((grid.drop (p - 1)).take 3).length = 3 ∧
    ((energies.drop (p - 1)).take 3).length = 3 ∧
    find_barrier store J K sym grid ≠ .error .windowOutOfBounds := by
  have hmem : p ∈ find_peaks energies (-5000) 5000 := by
    rw [hpeaks]; exact List.mem_cons_self _ _
  have hmem' : p ∈ local_maxima_go energies energies.length 1 :=
    (List.mem_filter.mp hmem).1
  have hb := local_maxima_go_bounds energies energies.length 1 p (le_refl 1) hmem'
  have hgw : ((grid.drop (p - 1)).take 3).length = 3 := by
    simp only [List.length_take, List.length_drop]
    omega
  have hew : ((energies.drop (p - 1)).take 3).length = 3 := by
    simp only [List.length_take, List.length_drop]
    omega
  refine ⟨by omega, by omega, hgw, hew, ?_⟩
  simp only [find_barrier, hst, hpeaks, if_pos (And.intro hgw hew)]
  exact fun h => Except.noConfusion h

/-- Witness for C10 on `grid = [1,2,3,4,5]`, `energies = [0,1,5,1,0]`,
whose first (and only) in-band peak is at index 2. -/
theorem first_peak_window_in_bounds_witness :
    1 ≤ 2 ∧ 2 + 2 ≤ ([0, 1, 5, 1, 0] : List ℚ).length ∧
    ((([1, 2, 3, 4, 5] : List ℚ).drop (2 - 1)).take 3).length = 3 ∧
    ((([0, 1, 5, 1, 0] : List ℚ).drop (2 - 1)).take 3).length = 3 ∧
    find_barrier (fun _ _ _ => some [0, 1, 5, 1, 0]) 0 0 0 [1, 2, 3, 4, 5]
      ≠ .error .windowOutOfBounds :=
  first_peak_window_in_bounds [1, 2, 3, 4, 5] [0, 1, 5, 1, 0] 2 []
    (fun _ _ _ => some [0, 1, 5, 1, 0]) 0 0 0 rfl (by decide) rfl
